import Mathlib

/-!
# Verification of the nudgr-server authentication core

A shallow embedding of the token-verification middleware of this
repository (`src/middleware/auth.js`, `src/lib/userSync.js`,
`src/lib/supabase.js`) together with proofs of the specification's
claims about it.

Modelling conventions:
* JS strings that may be `undefined`/`null` become `Option String`;
  JS truthiness of such a value is `truthy` (present and non-empty).
* Cryptographic signature validity is abstracted by boolean fields of
  the token (`hsValid`: the signature verifies under the configured
  shared secret; `rsValid`: it verifies under the JWKS key whose `kid`
  matches the token header).
* `Date.now()` is a parameter `nowMs`; `jwt.verify` works with
  `Math.floor(Date.now() / 1000)` seconds.
* Effects are explicit: the middleware takes the current JWKS cache
  state, the outcome of the (at most one) network fetch, the outcome of
  the Supabase admin lookup and of the user-sync step as parameters, and
  returns the HTTP outcome, the new cache state and a trace of the
  token-processing events it performed.
-/

namespace Nudgr

/-- Predicate `matchHead pat l` : the characters of `pat` lead the list `l`. -/
def matchHead : List Char → List Char → Bool
  | [], _ => true
  | _ :: _, [] => false
  | a :: as, b :: bs => a == b && matchHead as bs

/-- Predicate `hasSubChars pat l` : `pat` occurs contiguously somewhere in `l`. -/
def hasSubChars (pat : List Char) : List Char → Bool
  | [] => matchHead pat []
  | c :: cs => matchHead pat (c :: cs) || hasSubChars pat cs

/-- JS `s.includes(pat)` : substring containment on strings. -/
def strContainsSub (s pat : String) : Bool :=
  hasSubChars pat.toList s.toList

/-- JS `s.startsWith(pat)` on strings. -/
def strLeads (s pat : String) : Bool :=
  matchHead pat.toList s.toList

/-- JS truthiness of a possibly-absent string: present and non-empty. -/
def truthy : Option String → Bool
  | none => false
  | some s => !(s == "")

/-- JS `a || b` on possibly-absent strings: first truthy operand,
otherwise the second operand as-is. -/
def jsOr (a b : Option String) : Option String :=
  if truthy a then a else b

/-- The environment the middleware reads: configuration from
`process.env`, whether the Supabase admin client was initialised
(`src/lib/supabase.js`), and the current clock in milliseconds. -/
structure Env where
  supabaseAdminPresent : Bool
  supabaseUrl : Option String
  jwtSecret : Option String
  jwksUrl : Option String
  nowMs : Nat
deriving DecidableEq, Repr

/-- The value `Math.floor(Date.now() / 1000)`, the clock seen by `jwt.verify`. -/
def nowSec (env : Env) : Nat := env.nowMs / 1000

/-- Function `hasValidJWTConfig` from `src/middleware/auth.js` lines 10-40:
the issuer URL must be present and contain `.supabase.co`, and at least
one of the shared secret / JWKS URL must be configured. -/
def hasValidJWTConfig (env : Env) : Bool :=
  if !truthy env.supabaseUrl then false
  else if !strContainsSub (env.supabaseUrl.getD "") ".supabase.co" then false
  else if !truthy env.jwtSecret && !truthy env.jwksUrl then false
  else true

/-- One signing key of the provider key set, identified by `kid`
(key material is abstract). -/
structure JWK where
  kid : String
deriving DecidableEq, Repr

/-- A fetched JWKS document; `keys` is `none` when the document has no
`keys` array (the `Invalid JWKS format` case). -/
structure JWKSet where
  keys : Option (List JWK)
deriving DecidableEq, Repr

/-- The module-level mutable cache of `src/middleware/auth.js` lines
43-44: `jwksCache` and `jwksCacheExpiry` (milliseconds). -/
structure CacheState where
  jwksCache : Option JWKSet
  jwksCacheExpiry : Nat
deriving DecidableEq, Repr

/-- Outcome of the one outbound HTTP fetch of the key set: either a
parsed JWKS document, or failure (non-ok status or network error). -/
inductive NetResult where
  | ok (jwks : JWKSet)
  | fail
deriving DecidableEq, Repr

/-- Result of one call to `fetchSupabaseJWKS`: the new cache state, the
returned document or thrown error, and whether an outbound fetch was
issued. -/
structure FetchOut where
  state : CacheState
  result : Except Unit JWKSet
  fetched : Bool
deriving Repr

/-- The body of the `try` block of `fetchSupabaseJWKS` (lines 60-87):
issue the fetch; on success store the document and set the expiry to
now + 10 minutes; on failure rethrow, leaving the cache untouched. -/
def fetchFresh (st : CacheState) (nowMs : Nat) (net : NetResult) : FetchOut :=
  match net with
  | .ok jwks => ⟨⟨some jwks, nowMs + 10 * 60 * 1000⟩, .ok jwks, true⟩
  | .fail => ⟨st, .error (), true⟩

/-- Function `fetchSupabaseJWKS` (lines 46-87): serve from the cache when it is
populated and unexpired (`jwksCache && jwksCacheExpiry > now`),
otherwise fetch. -/
def fetchSupabaseJWKS (st : CacheState) (nowMs : Nat) (net : NetResult) : FetchOut :=
  match st.jwksCache with
  | some c =>
    if st.jwksCacheExpiry > nowMs then ⟨st, .ok c, false⟩
    else fetchFresh st nowMs net
  | none => fetchFresh st nowMs net

/-- Function `getSigningKey` (lines 90-107): fetch (or reuse) the JWKS, require a
`keys` array, find the key whose `kid` equals the token header's `kid`.
Errors carry the thrown message. -/
def getSigningKey (st : CacheState) (nowMs : Nat) (net : NetResult)
    (kid : Option String) : CacheState × Except String JWK :=
  let out := fetchSupabaseJWKS st nowMs net
  match out.result with
  | .error _ => (out.state, .error "JWKS fetch failed")
  | .ok jwks =>
    match jwks.keys with
    | none => (out.state, .error "Invalid JWKS format")
    | some keys =>
      match keys.find? (fun k => some k.kid == kid) with
      | none => (out.state, .error "Unable to find a signing key that matches the kid")
      | some k => (out.state, .ok k)

/-- Decoded JWT header: declared algorithm and optional key id. -/
structure JWTHeader where
  alg : String
  kid : Option String
deriving DecidableEq, Repr

/-- The claim set of a token, as read by the middleware. `exp` is in
seconds since the epoch (`none` when the claim is absent). -/
structure JWTClaims where
  sub : Option String
  email : Option String
  role : Option String
  iss : Option String
  exp : Option Nat
deriving DecidableEq, Repr

/-- Abstract signature facts about a token: `hsValid` means the
signature verifies under the configured shared secret, `rsValid` means
it verifies under the JWKS key whose `kid` matches the header. -/
structure SigInfo where
  hsValid : Bool
  rsValid : Bool
deriving DecidableEq, Repr

/-- Result of `jwt.decode(token, \x7b complete: true \x7d)`:
`malformed` when decoding yields no header. -/
inductive TokenRepr where
  | malformed
  | wellFormed (header : JWTHeader) (claims : JWTClaims) (sig : SigInfo)
deriving DecidableEq, Repr

/-- An incoming request: the raw `Authorization` header, and the decoded
form of the token carried after the `Bearer ` scheme. -/
structure Request where
  authHeader : Option String
  tok : TokenRepr
deriving DecidableEq, Repr

/-- Errors thrown by `jwt.verify`, by their `error.name`. -/
inductive JwtError where
  | expired
  | invalid (msg : String)
deriving DecidableEq, Repr

/-- The clock-skew tolerance passed to `jwt.verify` (`clockTolerance:
60`, lines 190 and 212). -/
def clockTolerance : Nat := 60

/-- The `issuer` option passed to `jwt.verify`:
`SUPABASE_URL + "/auth/v1"`. -/
def expectedIssuer (env : Env) : String := env.supabaseUrl.getD "" ++ "/auth/v1"

/-- The checks `jwt.verify` performs with the options used here, in the
order of the `jsonwebtoken` library: signature, then expiration against
`now >= exp + clockTolerance` (`TokenExpiredError`), then issuer
(`JsonWebTokenError`). `sigOk` abstracts validity of the signature under
the key in use. -/
def verifySig (sigOk : Bool) (issuer : String) (now : Nat)
    (claims : JWTClaims) : Except JwtError JWTClaims :=
  if !sigOk then .error (.invalid "invalid signature")
  else
    match claims.exp with
    | some e =>
      if now ≥ e + clockTolerance then .error .expired
      else if claims.iss == some issuer then .ok claims
      else .error (.invalid "jwt issuer invalid")
    | none =>
      if claims.iss == some issuer then .ok claims
      else .error (.invalid "jwt issuer invalid")

/-- Errors as they reach the outer `catch` of the middleware, by
`error.name`: `TokenExpiredError`, `JsonWebTokenError`, or a plain
`Error` with its message. -/
inductive Thrown where
  | jwtExpired
  | jwtInvalid (msg : String)
  | generic (msg : String)
deriving DecidableEq, Repr

/-- Rethrown `jwt.verify` errors keep their `error.name`. -/
def jwtErrToThrown : JwtError → Thrown
  | .expired => .jwtExpired
  | .invalid m => .jwtInvalid m

/-- Token-processing events, recorded in the order the middleware
performs them. -/
inductive Ev where
  | decode
  | keyResolve
  | hsVerify
  | rsVerify
  | adminLookup
  | userSync
deriving DecidableEq, Repr

/-- Message thrown when an HS256 token arrives with no secret
configured (line 182). -/
def secretRequiredMsg : String :=
  "SUPABASE_JWT_SECRET is required for HS256 token verification"

/-- Message thrown for a declared algorithm other than HS256/RS256
(line 223). -/
def unsupportedMsg (alg : String) : String :=
  "Unsupported JWT algorithm: " ++ alg ++ ". Only HS256 and RS256 are supported."

/-- Result of the algorithm-dispatch and signature-verification region
(lines 171-224): new cache state, events performed, and the verified
claims or the thrown error. -/
structure DispatchOut where
  cache : CacheState
  events : List Ev
  result : Except Thrown JWTClaims
deriving Repr

/-- Lines 171-224: dispatch on the declared algorithm. HS256 requires
the configured secret and verifies with it; RS256 resolves a key from
the JWKS cache by the header's `kid` and verifies with it; anything else
throws `Unsupported JWT algorithm` without any verification attempt. -/
def dispatchVerify (env : Env) (cache : CacheState) (net : NetResult)
    (hdr : JWTHeader) (sig : SigInfo) (claims : JWTClaims) : DispatchOut :=
  if hdr.alg == "HS256" then
    if !truthy env.jwtSecret then ⟨cache, [], .error (.generic secretRequiredMsg)⟩
    else
      match verifySig sig.hsValid (expectedIssuer env) (nowSec env) claims with
      | .error e => ⟨cache, [.hsVerify], .error (jwtErrToThrown e)⟩
      | .ok d => ⟨cache, [.hsVerify], .ok d⟩
  else if hdr.alg == "RS256" then
    match getSigningKey cache env.nowMs net hdr.kid with
    | (c, .error m) => ⟨c, [.keyResolve], .error (.generic m)⟩
    | (c, .ok _) =>
      match verifySig sig.rsValid (expectedIssuer env) (nowSec env) claims with
      | .error e => ⟨c, [.keyResolve, .rsVerify], .error (jwtErrToThrown e)⟩
      | .ok d => ⟨c, [.keyResolve, .rsVerify], .ok d⟩
  else ⟨cache, [], .error (.generic (unsupportedMsg hdr.alg))⟩

/-- A row of the local `User` table as touched by `ensureUserExists`. -/
structure DBUser where
  id : String
  email : Option String
  name : Option String
deriving DecidableEq, Repr

/-- The principal attached as `req.user` (lines 275-283 / 287-292):
token identity, the database user's display name and record when the
sync succeeded, and the full decoded claim set. -/
structure Principal where
  id : String
  email : Option String
  role : Option String
  name : Option String
  dbUser : Option DBUser
  claims : JWTClaims
deriving DecidableEq, Repr

/-- The value `userData.user` as returned by
`supabaseAdmin.auth.admin.getUserById`. -/
structure SupaUser where
  id : Option String
  email : Option String
  metaName : Option String
  metaFullName : Option String
deriving DecidableEq, Repr

/-- What the `try` block of the middleware ends with: an early
`res.status(...).json(...)` return, a thrown error (handled by the
outer `catch`), or success with the assembled principal. -/
inductive TryResult where
  | earlyRespond (status : Nat) (err : String)
  | thrown (t : Thrown)
  | success (p : Principal)
deriving DecidableEq, Repr

/-- Result of the whole `try` block: its outcome, the cache state after
any key resolution, and the events performed. -/
structure TryOut where
  result : TryResult
  cache : CacheState
  events : List Ev
deriving Repr

/-- Lines 237-296: after `jwt.verify` succeeded. Require the `sub` and
`role` claims; look the user up via the admin client (a lookup error is
a 401); sync the local user, and attach the principal — with
`name`/`dbUser` from the database when the sync succeeded, without them
when it threw. -/
def afterVerify (admin : Except Unit SupaUser) (syncRes : Except Unit DBUser)
    (cache : CacheState) (evs : List Ev) (decoded : JWTClaims) : TryOut :=
  if !truthy decoded.sub then
    ⟨.thrown (.generic "JWT missing subject (user ID)"), cache, evs⟩
  else if !truthy decoded.role then
    ⟨.thrown (.generic "JWT missing role claim"), cache, evs⟩
  else
    match admin with
    | .error _ =>
      ⟨.earlyRespond 401 "Authentication failed", cache, evs ++ [.adminLookup]⟩
    | .ok _ =>
      match syncRes with
      | .ok dbUser =>
        ⟨.success ⟨decoded.sub.getD "", decoded.email, decoded.role,
           dbUser.name, some dbUser, decoded⟩,
         cache, evs ++ [.adminLookup, .userSync]⟩
      | .error _ =>
        ⟨.success ⟨decoded.sub.getD "", decoded.email, decoded.role,
           none, none, decoded⟩,
         cache, evs ++ [.adminLookup, .userSync]⟩

/-- The `try` block (lines 150-296): Bearer-header check, token decode,
algorithm dispatch and verification, then claim checks and principal
assembly. -/
def authTryBlock (env : Env) (cache : CacheState) (net : NetResult)
    (admin : Except Unit SupaUser) (syncRes : Except Unit DBUser)
    (req : Request) : TryOut :=
  match req.authHeader with
  | none => ⟨.earlyRespond 401 "Access denied", cache, []⟩
  | some h =>
    if !(strLeads h "Bearer ") then ⟨.earlyRespond 401 "Access denied", cache, []⟩
    else
      match req.tok with
      | .malformed =>
        ⟨.thrown (.generic "Invalid JWT format - unable to decode header"), cache, [.decode]⟩
      | .wellFormed hdr claims sig =>
        match dispatchVerify env cache net hdr sig claims with
        | ⟨c2, evs, .error t⟩ => ⟨.thrown t, c2, .decode :: evs⟩
        | ⟨c2, evs, .ok decoded⟩ => afterVerify admin syncRes c2 (.decode :: evs) decoded

/-- The middleware's observable outcome: an HTTP error response, or
`next()` with the given principal attached as `req.user`. -/
inductive AuthOutcome where
  | respond (status : Nat) (err : String)
  | proceed (p : Principal)
deriving DecidableEq, Repr

/-- The outer `catch` (lines 297-316), keyed on `error.name`. -/
def catchResponse : Thrown → AuthOutcome
  | .jwtExpired => .respond 401 "Token expired"
  | .jwtInvalid _ => .respond 401 "Invalid token"
  | .generic _ => .respond 401 "Authentication failed"

/-- Full result of one middleware run. -/
structure MwOut where
  outcome : AuthOutcome
  cache : CacheState
  events : List Ev
deriving Repr

/-- Function `authMiddleware` (lines 123-317): the configuration gate
(`!supabaseAdmin || !hasValidJWTConfig()` gives a 503 before any token
work), then the `try` block with its `catch`. -/
def authMiddleware (env : Env) (cache : CacheState) (net : NetResult)
    (admin : Except Unit SupaUser) (syncRes : Except Unit DBUser)
    (req : Request) : MwOut :=
  if !env.supabaseAdminPresent || !hasValidJWTConfig env then
    ⟨.respond 503 "Authentication service unavailable", cache, []⟩
  else
    match authTryBlock env cache net admin syncRes req with
    | ⟨.earlyRespond s e, c2, evs⟩ => ⟨.respond s e, c2, evs⟩
    | ⟨.thrown th, c2, evs⟩ => ⟨catchResponse th, c2, evs⟩
    | ⟨.success p, c2, evs⟩ => ⟨.proceed p, c2, evs⟩

/-- Characters before the first `@`, or the whole list when none. -/
def beforeAtSign : List Char → List Char
  | [] => []
  | c :: cs => if c == '@' then [] else c :: beforeAtSign cs

/-- JS `email?.split('@')[0]`: local part of the email address. -/
def emailLocalPart (email : Option String) : Option String :=
  email.map (fun e => String.mk (beforeAtSign e.toList))

/-- The display name used when creating a user (`userSync.js` lines
25-27): `user_metadata?.name || user_metadata?.full_name ||
email?.split('@')[0]`. -/
def displayName (su : SupaUser) : Option String :=
  jsOr su.metaName (jsOr su.metaFullName (emailLocalPart su.email))

/-- A write issued against the `User` table: a `create`, or an `update`
whose `data` object contains exactly the fields recorded as `some`. -/
inductive DBWrite where
  | create (u : DBUser)
  | update (id : String) (email : Option String) (name : Option String)
deriving DecidableEq, Repr

/-- Result of one `ensureUserExists` call: the table afterwards, the
returned record (or thrown error message), and the writes issued. -/
structure EnsureOut where
  db : List DBUser
  result : Except String DBUser
  writes : List DBWrite
deriving Repr

/-- Function `ensureUserExists` (`src/lib/userSync.js` lines 8-55): reject input
without an id; create the user when absent; otherwise update only the
fields that are present in the input and differ from the stored row
(email when `supabaseUser.email` is truthy and differs; name when
`user_metadata?.name` is truthy and differs), issuing no write when
nothing differs. -/
def ensureUserExists (db : List DBUser) (su : SupaUser) : EnsureOut :=
  if !truthy su.id then ⟨db, .error "Invalid user data from Supabase", []⟩
  else
    let uid := su.id.getD ""
    match db.find? (fun u => u.id == uid) with
    | none =>
      let newU : DBUser := ⟨uid, su.email, displayName su⟩
      ⟨db ++ [newU], .ok newU, [.create newU]⟩
    | some u =>
      let emailUpd : Option String :=
        if truthy su.email && !(u.email == su.email) then su.email else none
      let nameUpd : Option String :=
        if truthy su.metaName && !(u.name == su.metaName) then su.metaName else none
      if emailUpd == none && nameUpd == none then ⟨db, .ok u, []⟩
      else
        let u2 : DBUser :=
          ⟨u.id,
           match emailUpd with | some v => some v | none => u.email,
           match nameUpd with | some v => some v | none => u.name⟩
        ⟨db.map (fun x => if x.id == uid then u2 else x), .ok u2,
         [.update uid emailUpd nameUpd]⟩

/-!
## Concurrency model of `fetchSupabaseJWKS`

Node runs JS callbacks atomically between `await` points. A call to
`fetchSupabaseJWKS` therefore has two atomic segments: the cache check
up to (and including) initiating the `fetch`, and the continuation after
the fetch resolves, which writes the cache. Concurrent callers are
identical, so the system state only needs how many callers are in each
phase, the shared module-level cache, and how many outbound fetches have
been issued. A schedule is a list of atomic steps.
-/

/-- State of `n` concurrent `fetchSupabaseJWKS` callers sharing the
module-level cache. -/
structure ConcState where
  cache : CacheState
  nReady : Nat
  nFetching : Nat
  nDone : Nat
  fetchCount : Nat
deriving DecidableEq, Repr

/-- One atomic step: some ready caller runs its cache check (issuing a
fetch on a miss), or some in-flight fetch resolves with the given
network outcome and its caller runs the continuation. -/
inductive ConcAct where
  | check
  | complete (net : NetResult)
deriving DecidableEq, Repr

/-- The first atomic segment of `fetchSupabaseJWKS`: return the cached
document if `jwksCache && jwksCacheExpiry > now`, otherwise issue an
outbound fetch and suspend. -/
def concCheck (nowMs : Nat) (s : ConcState) : ConcState :=
  if s.nReady = 0 then s
  else
    match s.cache.jwksCache with
    | some _ =>
      if s.cache.jwksCacheExpiry > nowMs then
        ⟨s.cache, s.nReady - 1, s.nFetching, s.nDone + 1, s.fetchCount⟩
      else
        ⟨s.cache, s.nReady - 1, s.nFetching + 1, s.nDone, s.fetchCount + 1⟩
    | none =>
      ⟨s.cache, s.nReady - 1, s.nFetching + 1, s.nDone, s.fetchCount + 1⟩

/-- The continuation after an in-flight fetch resolves: on success store
the document and the new expiry in the shared cache; on failure rethrow,
leaving the cache untouched. -/
def concComplete (nowMs : Nat) (net : NetResult) (s : ConcState) : ConcState :=
  if s.nFetching = 0 then s
  else
    match net with
    | .ok jwks =>
      ⟨⟨some jwks, nowMs + 10 * 60 * 1000⟩, s.nReady, s.nFetching - 1,
       s.nDone + 1, s.fetchCount⟩
    | .fail =>
      ⟨s.cache, s.nReady, s.nFetching - 1, s.nDone + 1, s.fetchCount⟩

/-- Execute one atomic step. -/
def concStep (nowMs : Nat) : ConcAct → ConcState → ConcState
  | .check, s => concCheck nowMs s
  | .complete net, s => concComplete nowMs net s

/-- Execute a schedule of atomic steps. -/
def concRun (nowMs : Nat) : List ConcAct → ConcState → ConcState
  | [], s => s
  | a :: as, s => concRun nowMs as (concStep nowMs a s)

/-- Initial state: `n` concurrent callers about to resolve against the
given cache, no fetch issued yet. -/
def concInit (cache : CacheState) (n : Nat) : ConcState :=
  ⟨cache, n, 0, 0, 0⟩

/-- All callers have finished their resolution. -/
def allDone (s : ConcState) : Bool :=
  s.nReady = 0 && s.nFetching = 0

/-!
## Concrete inputs used to witness the theorems
-/

/-- A well-formed Supabase project URL. -/
def wUrl : String := "https://proj.supabase.co"

/-- The issuer the middleware expects for `wUrl`. -/
def wIss : String := "https://proj.supabase.co/auth/v1"

/-- A fully configured environment (shared secret set, admin client
initialised); the clock reads 1000000 seconds. -/
def wEnv : Env := ⟨true, some wUrl, some "topsecret", none, 1000000000⟩

/-- A misconfigured environment: no admin client, no configuration. -/
def wEnvBad : Env := ⟨false, none, none, none, 1000000000⟩

/-- Claims of a valid token: subject, email, role, matching issuer,
expiry 300 seconds in the future. -/
def wClaims : JWTClaims :=
  ⟨some "u1", some "a@b.com", some "authenticated", some wIss, some 1000300⟩

/-- Claims whose expiry lies 61 seconds before the clock of `wEnv`. -/
def wClaims61 : JWTClaims :=
  ⟨some "u1", some "a@b.com", some "authenticated", some wIss, some 999939⟩

/-- Claims whose expiry lies 59 seconds before the clock of `wEnv`. -/
def wClaims59 : JWTClaims :=
  ⟨some "u1", some "a@b.com", some "authenticated", some wIss, some 999941⟩

/-- Claims with a subject but no role. -/
def wClaimsNoRole : JWTClaims :=
  ⟨some "u1", some "a@b.com", none, some wIss, some 1000300⟩

/-- Claims with no subject. -/
def wClaimsNoSub : JWTClaims :=
  ⟨none, some "a@b.com", some "authenticated", some wIss, some 1000300⟩

/-- An HS256 token header. -/
def wHdr : JWTHeader := ⟨"HS256", none⟩

/-- A signature that verifies under the configured shared secret. -/
def wSig : SigInfo := ⟨true, false⟩

/-- A request carrying a valid HS256 bearer token. -/
def wReq : Request := ⟨some "Bearer t", .wellFormed wHdr wClaims wSig⟩

/-- The admin-lookup result for the verified subject. -/
def wSupaUser : SupaUser := ⟨some "u1", some "a@b.com", some "Ann", none⟩

/-- The synced local user record. -/
def wDbUser : DBUser := ⟨"u1", some "a@b.com", some "Ann"⟩

/-- An empty JWKS cache. -/
def wCache : CacheState := ⟨none, 0⟩

/-- The principal the middleware attaches for `wReq` when the admin
lookup and the user sync both succeed. -/
def wPrincipal : Principal :=
  ⟨"u1", some "a@b.com", some "authenticated", some "Ann", some wDbUser, wClaims⟩

/-- A one-key JWKS document. -/
def wJWKS : JWKSet := ⟨some [⟨"kid1"⟩]⟩

/-- A schedule in which two concurrent callers both run their cache
check against the empty cache before either fetch resolves. -/
def wSchedule : List ConcAct :=
  [.check, .check, .complete (.ok wJWKS), .complete (.ok wJWKS)]

/-- A local user table holding one row for subject `u1` with an old
email address. -/
def wDb : List DBUser := [⟨"u1", some "old@b.com", some "Ann"⟩]

/-- Supabase auth data for `u1` with a new email and an unchanged
display name. -/
def wSuNewEmail : SupaUser := ⟨some "u1", some "a@b.com", some "Ann", none⟩

/-!
## Theorems
-/

/-- C3: when the trust configuration is invalid (admin client absent or
the JWT configuration check failing), the middleware answers 503 with no
token event recorded — no token is extracted, decoded or verified, and
the request is never passed on. -/
theorem invalid_config_fails_closed
    (env : Env) (cache : CacheState) (net : NetResult)
    (admin : Except Unit SupaUser) (syncRes : Except Unit DBUser)
    (req : Request)
    (h : env.supabaseAdminPresent = false ∨ hasValidJWTConfig env = false) :
    (authMiddleware env cache net admin syncRes req).outcome =
      .respond 503 "Authentication service unavailable" ∧
    (authMiddleware env cache net admin syncRes req).events = [] ∧
    ∀ p, (authMiddleware env cache net admin syncRes req).outcome ≠ .proceed p := by
  have hc : (!env.supabaseAdminPresent || !hasValidJWTConfig env) = true := by
    rcases h with h | h <;> simp [h]
  unfold authMiddleware
  rw [if_pos hc]
  refine ⟨rfl, rfl, ?_⟩
  intro p hp
  exact AuthOutcome.noConfusion hp

/-- Witness for C3 at a concrete misconfigured environment. -/
theorem invalid_config_fails_closed_witness :
    (authMiddleware wEnvBad wCache .fail (.ok wSupaUser) (.ok wDbUser) wReq).outcome =
      .respond 503 "Authentication service unavailable" ∧
    (authMiddleware wEnvBad wCache .fail (.ok wSupaUser) (.ok wDbUser) wReq).events = [] ∧
    ∀ p, (authMiddleware wEnvBad wCache .fail (.ok wSupaUser) (.ok wDbUser) wReq).outcome ≠
      .proceed p :=
  invalid_config_fails_closed wEnvBad wCache .fail (.ok wSupaUser) (.ok wDbUser) wReq
    (Or.inl rfl)

/-- Reduction of the key-set fetch on a populated, unexpired cache. -/
theorem fetchSupabaseJWKS_valid (c : JWKSet) (ex nowMs : Nat) (net : NetResult)
    (h : ex > nowMs) :
    fetchSupabaseJWKS ⟨some c, ex⟩ nowMs net = ⟨⟨some c, ex⟩, .ok c, false⟩ := by
  show (if ex > nowMs then (⟨⟨some c, ex⟩, .ok c, false⟩ : FetchOut)
        else fetchFresh ⟨some c, ex⟩ nowMs net) = _
  rw [if_pos h]

/-- Reduction of the key-set fetch on a populated but expired cache. -/
theorem fetchSupabaseJWKS_expired (c : JWKSet) (ex nowMs : Nat) (net : NetResult)
    (h : ¬ ex > nowMs) :
    fetchSupabaseJWKS ⟨some c, ex⟩ nowMs net = fetchFresh ⟨some c, ex⟩ nowMs net := by
  show (if ex > nowMs then (⟨⟨some c, ex⟩, .ok c, false⟩ : FetchOut)
        else fetchFresh ⟨some c, ex⟩ nowMs net) = _
  rw [if_neg h]

/-- C6: a failed remote key-set fetch leaves the cached entry and its
expiry unchanged and surfaces an error whenever a fetch was actually
issued; and the cache entry changes only when a successful fetch
replaces it wholesale with the fresh document and a new expiry. -/
theorem fetch_failure_retains_cache (st : CacheState) (nowMs : Nat) (net : NetResult) :
    ((fetchSupabaseJWKS st nowMs .fail).state = st ∧
     ((fetchSupabaseJWKS st nowMs .fail).fetched = true →
       (fetchSupabaseJWKS st nowMs .fail).result = .error ())) ∧
    ((fetchSupabaseJWKS st nowMs net).state ≠ st →
      ∃ jwks, net = .ok jwks ∧
        (fetchSupabaseJWKS st nowMs net).state =
          ⟨some jwks, nowMs + 10 * 60 * 1000⟩ ∧
        (fetchSupabaseJWKS st nowMs net).result = .ok jwks) := by
  rcases st with ⟨c, ex⟩
  constructor
  · cases c with
    | none => exact ⟨rfl, fun _ => rfl⟩
    | some c =>
      by_cases hex : ex > nowMs
      · rw [fetchSupabaseJWKS_valid c ex nowMs .fail hex]
        exact ⟨rfl, fun hf => by simp at hf⟩
      · rw [fetchSupabaseJWKS_expired c ex nowMs .fail hex]
        exact ⟨rfl, fun _ => rfl⟩
  · intro hne
    cases c with
    | none =>
      cases net with
      | ok jwks => exact ⟨jwks, rfl, rfl, rfl⟩
      | fail => exact absurd rfl hne
    | some c =>
      by_cases hex : ex > nowMs
      · rw [fetchSupabaseJWKS_valid c ex nowMs net hex] at hne
        exact absurd rfl hne
      · rw [fetchSupabaseJWKS_expired c ex nowMs net hex] at hne ⊢
        cases net with
        | ok jwks => exact ⟨jwks, rfl, rfl, rfl⟩
        | fail => exact absurd rfl hne

/-- Witness for C6 at a concrete expired cache entry. -/
theorem fetch_failure_retains_cache_witness :
    (((fetchSupabaseJWKS ⟨some wJWKS, 5000⟩ 9999 .fail).state = ⟨some wJWKS, 5000⟩ ∧
      ((fetchSupabaseJWKS ⟨some wJWKS, 5000⟩ 9999 .fail).fetched = true →
        (fetchSupabaseJWKS ⟨some wJWKS, 5000⟩ 9999 .fail).result = .error ())) ∧
     ((fetchSupabaseJWKS ⟨some wJWKS, 5000⟩ 9999 .fail).state ≠ ⟨some wJWKS, 5000⟩ →
       ∃ jwks, (NetResult.fail = .ok jwks) ∧
         (fetchSupabaseJWKS ⟨some wJWKS, 5000⟩ 9999 .fail).state =
           ⟨some jwks, 9999 + 10 * 60 * 1000⟩ ∧
         (fetchSupabaseJWKS ⟨some wJWKS, 5000⟩ 9999 .fail).result = .ok jwks)) :=
  fetch_failure_retains_cache ⟨some wJWKS, 5000⟩ 9999 .fail

/-- Inversion of a successful `jwt.verify` run: the returned claims are
the input claims, the signature was valid, expiration holds within the
tolerance, and the issuer matches. -/
theorem verifySig_ok_inv (sigOk : Bool) (issuer : String) (now : Nat)
    (claims d : JWTClaims)
    (h : verifySig sigOk issuer now claims = .ok d) :
    d = claims ∧ sigOk = true ∧
    (∀ e, claims.exp = some e → now < e + clockTolerance) ∧
    claims.iss = some issuer := by
  unfold verifySig at h
  split at h
  · cases h
  · rename_i hsig
    have hs : sigOk = true := by revert hsig; cases sigOk <;> simp
    split at h
    · rename_i e hexp
      split at h
      · cases h
      · rename_i hle
        split at h
        · rename_i hiss
          injection h with h
          subst h
          refine ⟨rfl, hs, ?_, eq_of_beq hiss⟩
          intro e2 he2
          rw [hexp] at he2
          injection he2 with he2
          subst he2
          exact Nat.lt_of_not_le hle
        · cases h
    · rename_i hexp
      split at h
      · rename_i hiss
        injection h with h
        subst h
        refine ⟨rfl, hs, ?_, eq_of_beq hiss⟩
        intro e2 he2
        rw [hexp] at he2
        cases he2
      · cases h

/-- Inversion of a successful algorithm dispatch (lines 171-224): the
verified claims are the token's own, reached through one of the two
supported algorithm paths, within the clock-skew tolerance and with a
matching issuer. -/
theorem dispatchVerify_ok_inv (env : Env) (cache : CacheState) (net : NetResult)
    (hdr : JWTHeader) (sig : SigInfo) (claims d : JWTClaims)
    (h : (dispatchVerify env cache net hdr sig claims).result = .ok d) :
    d = claims ∧
    ((hdr.alg = "HS256" ∧ truthy env.jwtSecret = true ∧ sig.hsValid = true) ∨
     (hdr.alg = "RS256" ∧ sig.rsValid = true ∧
       ∃ k, (getSigningKey cache env.nowMs net hdr.kid).2 = .ok k)) ∧
    (∀ e, claims.exp = some e → nowSec env < e + clockTolerance) ∧
    claims.iss = some (expectedIssuer env) := by
  unfold dispatchVerify at h
  split at h
  · rename_i halg
    split at h
    · cases h
    · rename_i hsecret
      have hsec : truthy env.jwtSecret = true := by
        revert hsecret; cases truthy env.jwtSecret <;> simp
      split at h
      · cases h
      · rename_i d2 hvs
        simp only at h
        injection h with h
        subst h
        obtain ⟨hd, hsv, hexp, hiss⟩ := verifySig_ok_inv _ _ _ _ _ hvs
        exact ⟨hd, Or.inl ⟨eq_of_beq halg, hsec, hsv⟩, hexp, hiss⟩
  · rename_i halgNot
    split at h
    · rename_i halg
      split at h
      · cases h
      · rename_i c2 k hk
        split at h
        · cases h
        · rename_i d2 hvs
          simp only at h
          injection h with h
          subst h
          obtain ⟨hd, hsv, hexp, hiss⟩ := verifySig_ok_inv _ _ _ _ _ hvs
          refine ⟨hd, Or.inr ⟨eq_of_beq halg, hsv, k, ?_⟩, hexp, hiss⟩
          rw [hk]
    · cases h

/-- Inversion of a successful `try` block: success requires a Bearer
header, a well-formed token, a successful dispatch on the token's own
claims, and both identity claims; the principal is built from exactly
those claims. -/
theorem authTryBlock_success_inv (env : Env) (cache : CacheState) (net : NetResult)
    (admin : Except Unit SupaUser) (syncRes : Except Unit DBUser)
    (req : Request) (p : Principal)
    (h : (authTryBlock env cache net admin syncRes req).result = .success p) :
    ∃ hdr claims sig,
      req.tok = .wellFormed hdr claims sig ∧
      (dispatchVerify env cache net hdr sig claims).result = .ok claims ∧
      truthy claims.sub = true ∧ truthy claims.role = true ∧
      p.claims = claims ∧ p.id = claims.sub.getD "" ∧
      p.role = claims.role ∧ p.email = claims.email := by
  unfold authTryBlock at h
  split at h
  · cases h
  · rename_i ah
    split at h
    · cases h
    · split at h
      · cases h
      · rename_i hdr claims sig htok
        split at h
        · cases h
        · rename_i c2 evs decoded hdisp
          have hres : (dispatchVerify env cache net hdr sig claims).result = .ok decoded := by
            rw [hdisp]
          obtain ⟨hdc, _, _, _⟩ := dispatchVerify_ok_inv _ _ _ _ _ _ _ hres
          subst hdc
          refine ⟨hdr, decoded, sig, htok, hres, ?_⟩
          unfold afterVerify at h
          split at h
          · cases h
          · rename_i hsub
            have hs : truthy decoded.sub = true := by
              revert hsub; cases truthy decoded.sub <;> simp
            split at h
            · cases h
            · rename_i hrole
              have hr : truthy decoded.role = true := by
                revert hrole; cases truthy decoded.role <;> simp
              split at h
              · cases h
              · split at h
                · rename_i dbu hsync
                  simp only at h
                  injection h with h
                  subst h
                  exact ⟨hs, hr, rfl, rfl, rfl, rfl⟩
                · simp only at h
                  injection h with h
                  subst h
                  exact ⟨hs, hr, rfl, rfl, rfl, rfl⟩

/-- A middleware run that calls the downstream handler did so through a
successful `try` block with the same principal. -/
theorem authMiddleware_proceed_inv (env : Env) (cache : CacheState) (net : NetResult)
    (admin : Except Unit SupaUser) (syncRes : Except Unit DBUser)
    (req : Request) (p : Principal)
    (h : (authMiddleware env cache net admin syncRes req).outcome = .proceed p) :
    (authTryBlock env cache net admin syncRes req).result = .success p := by
  unfold authMiddleware at h
  split at h
  · cases h
  · split at h
    · cases h
    · rename_i th c2 evs hth
      cases th <;> simp [catchResponse] at h
    · rename_i q c2 evs hq
      simp only at h
      injection h with h
      subst h
      rw [hq]

/-- C1: a principal is attached to the request (the middleware calls the
downstream handler) only when the bearer token passed full signature
verification on a supported algorithm path — valid signature under the
shared secret or under the JWKS key resolved by kid, unexpired within
the tolerance, issuer matching — and carries both the subject and the
role claim; the attached principal is built from exactly that fully
verified claim set. -/
theorem principal_requires_full_verification
    (env : Env) (cache : CacheState) (net : NetResult)
    (admin : Except Unit SupaUser) (syncRes : Except Unit DBUser)
    (req : Request) (p : Principal)
    (h : (authMiddleware env cache net admin syncRes req).outcome = .proceed p) :
    ∃ hdr claims sig,
      req.tok = .wellFormed hdr claims sig ∧
      ((hdr.alg = "HS256" ∧ truthy env.jwtSecret = true ∧ sig.hsValid = true) ∨
       (hdr.alg = "RS256" ∧ sig.rsValid = true ∧
         ∃ k, (getSigningKey cache env.nowMs net hdr.kid).2 = .ok k)) ∧
      (∀ e, claims.exp = some e → nowSec env < e + clockTolerance) ∧
      claims.iss = some (expectedIssuer env) ∧
      truthy claims.sub = true ∧ truthy claims.role = true ∧
      p.claims = claims ∧ p.id = claims.sub.getD "" ∧
      p.role = claims.role ∧ p.email = claims.email := by
  obtain ⟨hdr, claims, sig, htok, hres, hs, hr, hpc, hpi, hpr, hpe⟩ :=
    authTryBlock_success_inv env cache net admin syncRes req p
      (authMiddleware_proceed_inv env cache net admin syncRes req p h)
  obtain ⟨-, halg, hexp, hiss⟩ := dispatchVerify_ok_inv _ _ _ _ _ _ _ hres
  exact ⟨hdr, claims, sig, htok, halg, hexp, hiss, hs, hr, hpc, hpi, hpr, hpe⟩

/-- Witness for C1: the concrete valid request is let through, and the
theorem recovers the verification facts for it. -/
theorem principal_requires_full_verification_witness :
    ∃ hdr claims sig,
      wReq.tok = .wellFormed hdr claims sig ∧
      ((hdr.alg = "HS256" ∧ truthy wEnv.jwtSecret = true ∧ sig.hsValid = true) ∨
       (hdr.alg = "RS256" ∧ sig.rsValid = true ∧
         ∃ k, (getSigningKey wCache wEnv.nowMs NetResult.fail hdr.kid).2 = .ok k)) ∧
      (∀ e, claims.exp = some e → nowSec wEnv < e + clockTolerance) ∧
      claims.iss = some (expectedIssuer wEnv) ∧
      truthy claims.sub = true ∧ truthy claims.role = true ∧
      wPrincipal.claims = claims ∧ wPrincipal.id = claims.sub.getD "" ∧
      wPrincipal.role = claims.role ∧ wPrincipal.email = claims.email :=
  principal_requires_full_verification wEnv wCache .fail (.ok wSupaUser) (.ok wDbUser)
    wReq wPrincipal (by decide)

/-- Computation rule: a valid-signature token that is expired beyond
the tolerance fails `jwt.verify` with `TokenExpiredError`. -/
theorem verifySig_expired (sigOk : Bool) (issuer : String) (now : Nat)
    (claims : JWTClaims) (e : Nat)
    (hexp : claims.exp = some e) (hnow : now ≥ e + clockTolerance)
    (hsig : sigOk = true) :
    verifySig sigOk issuer now claims = .error .expired := by
  subst hsig
  simp [verifySig, hexp, hnow]

/-- Computation rule: a valid-signature token within the tolerance and
with a matching issuer passes `jwt.verify` with its own claims. -/
theorem verifySig_ok_of (sigOk : Bool) (issuer : String) (now : Nat)
    (claims : JWTClaims)
    (hsig : sigOk = true)
    (hexp : ∀ e, claims.exp = some e → now < e + clockTolerance)
    (hiss : claims.iss = some issuer) :
    verifySig sigOk issuer now claims = .ok claims := by
  subst hsig
  unfold verifySig
  cases hce : claims.exp with
  | none => simp [hiss]
  | some e =>
    have hlt := hexp e hce
    simp [hiss, Nat.not_le.mpr hlt]

/-- On either supported algorithm path (with the secret configured for
HS256, and the key resolving for RS256), the dispatch result is exactly
the `jwt.verify` result for the signature bit of that path. -/
theorem dispatchVerify_on_path (env : Env) (cache : CacheState) (net : NetResult)
    (hdr : JWTHeader) (sig : SigInfo) (claims : JWTClaims)
    (halg : hdr.alg = "HS256" ∨ hdr.alg = "RS256")
    (hsec : hdr.alg = "HS256" → truthy env.jwtSecret = true)
    (hkey : hdr.alg = "RS256" → ∃ k, (getSigningKey cache env.nowMs net hdr.kid).2 = .ok k) :
    (dispatchVerify env cache net hdr sig claims).result =
      Except.mapError jwtErrToThrown
        (verifySig (if hdr.alg = "HS256" then sig.hsValid else sig.rsValid)
          (expectedIssuer env) (nowSec env) claims) := by
  unfold dispatchVerify
  rcases halg with ha | ha
  · rw [ha, hsec ha]
    cases hvs : verifySig sig.hsValid (expectedIssuer env) (nowSec env) claims with
    | error e => simp [hvs, Except.mapError]
    | ok d => simp [hvs, Except.mapError]
  · rw [ha]
    obtain ⟨k, hk⟩ := hkey ha
    rcases hgk : getSigningKey cache env.nowMs net hdr.kid with ⟨c2, kr⟩
    rw [hgk] at hk
    simp only at hk
    subst hk
    cases hvs : verifySig sig.rsValid (expectedIssuer env) (nowSec env) claims with
    | error e => simp [hgk, hvs, Except.mapError]
    | ok d => simp [hgk, hvs, Except.mapError]

/-- With a Bearer header and a well-formed token, a dispatch error is
rethrown out of the `try` block unchanged. -/
theorem authTryBlock_dispatch_error (env : Env) (cache : CacheState) (net : NetResult)
    (admin : Except Unit SupaUser) (syncRes : Except Unit DBUser)
    (ah : String) (hdr : JWTHeader) (claims : JWTClaims) (sig : SigInfo) (t : Thrown)
    (hb : strLeads ah "Bearer " = true)
    (ht : (dispatchVerify env cache net hdr sig claims).result = .error t) :
    (authTryBlock env cache net admin syncRes ⟨some ah, .wellFormed hdr claims sig⟩).result =
      .thrown t := by
  unfold authTryBlock
  simp only [hb, Bool.not_true, Bool.false_eq_true, if_false]
  rcases hd : dispatchVerify env cache net hdr sig claims with ⟨c2, evs, r⟩
  rw [hd] at ht
  simp only at ht
  subst ht
  rfl

/-- With a Bearer header and a well-formed token, a successful dispatch
continues into the claim checks and principal assembly. -/
theorem authTryBlock_dispatch_ok (env : Env) (cache : CacheState) (net : NetResult)
    (admin : Except Unit SupaUser) (syncRes : Except Unit DBUser)
    (ah : String) (hdr : JWTHeader) (claims : JWTClaims) (sig : SigInfo)
    (decoded : JWTClaims) (c2 : CacheState) (evs : List Ev)
    (hb : strLeads ah "Bearer " = true)
    (ht : dispatchVerify env cache net hdr sig claims = ⟨c2, evs, .ok decoded⟩) :
    (authTryBlock env cache net admin syncRes ⟨some ah, .wellFormed hdr claims sig⟩).result =
      (afterVerify admin syncRes c2 (.decode :: evs) decoded).result := by
  unfold authTryBlock
  simp only [hb, Bool.not_true, Bool.false_eq_true, if_false]
  rw [ht]

/-- C4: expiration is enforced with a fixed 60-second clock-skew
tolerance on both verification paths: under identical conditions (a
supported algorithm whose signature bit is valid, secret present for
HS256, key resolving for RS256, admin lookup succeeding), a token whose
expiry lies 61 seconds before the verification clock is rejected as
expired, while one whose expiry lies 59 seconds before it is accepted
and a principal is attached. -/
theorem clock_skew_boundary (env : Env) (cache : CacheState) (net : NetResult)
    (admin : Except Unit SupaUser) (syncRes : Except Unit DBUser) (u : SupaUser)
    (hdr : JWTHeader) (sig : SigInfo) (ah : String)
    (cl61 cl59 : JWTClaims) (e61 e59 : Nat)
    (hb : strLeads ah "Bearer " = true)
    (halg : hdr.alg = "HS256" ∨ hdr.alg = "RS256")
    (hsec : hdr.alg = "HS256" → truthy env.jwtSecret = true)
    (hkey : hdr.alg = "RS256" → ∃ k, (getSigningKey cache env.nowMs net hdr.kid).2 = .ok k)
    (hsig : (if hdr.alg = "HS256" then sig.hsValid else sig.rsValid) = true)
    (hadmin : admin = .ok u)
    (h61e : cl61.exp = some e61) (h61n : nowSec env = e61 + 61)
    (h59e : cl59.exp = some e59) (h59n : nowSec env = e59 + 59)
    (h59i : cl59.iss = some (expectedIssuer env))
    (h59s : truthy cl59.sub = true) (h59r : truthy cl59.role = true) :
    (authTryBlock env cache net admin syncRes
        ⟨some ah, .wellFormed hdr cl61 sig⟩).result = .thrown .jwtExpired ∧
    ∃ p, (authTryBlock env cache net admin syncRes
        ⟨some ah, .wellFormed hdr cl59 sig⟩).result = .success p := by
  have hct : clockTolerance = 60 := rfl
  constructor
  · apply authTryBlock_dispatch_error env cache net admin syncRes ah hdr cl61 sig _ hb
    rw [dispatchVerify_on_path env cache net hdr sig cl61 halg hsec hkey]
    rw [verifySig_expired _ _ _ _ e61 h61e (by omega) hsig]
    rfl
  · have hok : (dispatchVerify env cache net hdr sig cl59).result = .ok cl59 := by
      rw [dispatchVerify_on_path env cache net hdr sig cl59 halg hsec hkey]
      rw [verifySig_ok_of _ _ _ _ hsig ?hlt h59i]
      · rfl
      case hlt =>
        intro e he
        rw [h59e] at he
        injection he with he
        subst he
        omega
    rcases hd : dispatchVerify env cache net hdr sig cl59 with ⟨c2, evs, r⟩
    rw [hd] at hok
    simp only at hok
    subst hok
    rw [authTryBlock_dispatch_ok env cache net admin syncRes ah hdr cl59 sig cl59 c2 evs hb hd]
    subst hadmin
    cases syncRes with
    | ok dbu =>
      refine ⟨⟨cl59.sub.getD "", cl59.email, cl59.role, dbu.name, some dbu, cl59⟩, ?_⟩
      simp [afterVerify, h59s, h59r]
    | error e =>
      refine ⟨⟨cl59.sub.getD "", cl59.email, cl59.role, none, none, cl59⟩, ?_⟩
      simp [afterVerify, h59s, h59r]

/-- Witness for C4 at the concrete boundary instants 61 and 59 seconds
past expiry on the HS256 path. -/
theorem clock_skew_boundary_witness :
    (authTryBlock wEnv wCache .fail (.ok wSupaUser) (.ok wDbUser)
        ⟨some "Bearer t", .wellFormed wHdr wClaims61 wSig⟩).result = .thrown .jwtExpired ∧
    ∃ p, (authTryBlock wEnv wCache .fail (.ok wSupaUser) (.ok wDbUser)
        ⟨some "Bearer t", .wellFormed wHdr wClaims59 wSig⟩).result = .success p :=
  clock_skew_boundary wEnv wCache .fail (.ok wSupaUser) (.ok wDbUser) wSupaUser
    wHdr wSig "Bearer t" wClaims61 wClaims59 999939 999941
    (by decide) (Or.inl rfl) (fun _ => rfl) (fun hra => absurd hra (by decide))
    (by decide) rfl rfl (by decide) rfl (by decide) (by decide) (by decide) (by decide)

/-- C5: exactly two token algorithms are dispatched. Any other declared
algorithm is rejected as unsupported with no verification event
recorded (no key resolution, no signature verification attempt); HS256
with no configured secret is rejected with the secret-required error;
HS256 with a secret is decided exactly by verification against the
shared secret; RS256 resolves a key from the key-set cache by the
header's kid — a resolution failure is rethrown, and otherwise the
outcome is decided exactly by verification against the resolved key. -/
theorem supported_algorithms (env : Env) (cache : CacheState) (net : NetResult)
    (hdr : JWTHeader) (sig : SigInfo) (claims : JWTClaims) :
    (hdr.alg ≠ "HS256" → hdr.alg ≠ "RS256" →
      (dispatchVerify env cache net hdr sig claims).result =
        .error (.generic (unsupportedMsg hdr.alg)) ∧
      (dispatchVerify env cache net hdr sig claims).events = []) ∧
    (hdr.alg = "HS256" → truthy env.jwtSecret = false →
      (dispatchVerify env cache net hdr sig claims).result =
        .error (.generic secretRequiredMsg) ∧
      (dispatchVerify env cache net hdr sig claims).events = []) ∧
    (hdr.alg = "HS256" → truthy env.jwtSecret = true →
      (dispatchVerify env cache net hdr sig claims).result =
        Except.mapError jwtErrToThrown
          (verifySig sig.hsValid (expectedIssuer env) (nowSec env) claims) ∧
      (dispatchVerify env cache net hdr sig claims).events = [.hsVerify]) ∧
    (hdr.alg = "RS256" →
      (∀ m, (getSigningKey cache env.nowMs net hdr.kid).2 = .error m →
        (dispatchVerify env cache net hdr sig claims).result = .error (.generic m) ∧
        (dispatchVerify env cache net hdr sig claims).events = [.keyResolve]) ∧
      (∀ k, (getSigningKey cache env.nowMs net hdr.kid).2 = .ok k →
        (dispatchVerify env cache net hdr sig claims).result =
          Except.mapError jwtErrToThrown
            (verifySig sig.rsValid (expectedIssuer env) (nowSec env) claims) ∧
        (dispatchVerify env cache net hdr sig claims).events = [.keyResolve, .rsVerify])) := by
  refine ⟨?_, ?_, ?_, ?_⟩
  · intro h1 h2
    have hb1 : (hdr.alg == "HS256") = false := beq_eq_false_iff_ne.mpr h1
    have hb2 : (hdr.alg == "RS256") = false := beq_eq_false_iff_ne.mpr h2
    constructor <;> simp [dispatchVerify, hb1, hb2]
  · intro ha hs
    constructor <;> simp [dispatchVerify, ha, hs]
  · intro ha hs
    cases hvs : verifySig sig.hsValid (expectedIssuer env) (nowSec env) claims with
    | error e => constructor <;> simp [dispatchVerify, ha, hs, hvs, Except.mapError]
    | ok d => constructor <;> simp [dispatchVerify, ha, hs, hvs, Except.mapError]
  · intro ha
    constructor
    · intro m hm
      rcases hgk : getSigningKey cache env.nowMs net hdr.kid with ⟨c2, kr⟩
      rw [hgk] at hm
      simp only at hm
      subst hm
      constructor <;> simp [dispatchVerify, ha, hgk]
    · intro k hk
      rcases hgk : getSigningKey cache env.nowMs net hdr.kid with ⟨c2, kr⟩
      rw [hgk] at hk
      simp only at hk
      subst hk
      cases hvs : verifySig sig.rsValid (expectedIssuer env) (nowSec env) claims with
      | error e => constructor <;> simp [dispatchVerify, ha, hgk, hvs, Except.mapError]
      | ok d => constructor <;> simp [dispatchVerify, ha, hgk, hvs, Except.mapError]

/-- Witness for C5: the concrete algorithm ES256 is rejected as
unsupported with no verification attempted. -/
theorem supported_algorithms_witness :
    (dispatchVerify wEnv wCache .fail ⟨"ES256", none⟩ wSig wClaims).result =
      .error (.generic (unsupportedMsg "ES256")) ∧
    (dispatchVerify wEnv wCache .fail ⟨"ES256", none⟩ wSig wClaims).events = [] :=
  (supported_algorithms wEnv wCache .fail ⟨"ES256", none⟩ wSig wClaims).1
    (by decide) (by decide)

/-- When the configuration gate passes, the middleware outcome is
determined by the `try` block result through the `catch` mapping. -/
theorem authMiddleware_of_config (env : Env) (cache : CacheState) (net : NetResult)
    (admin : Except Unit SupaUser) (syncRes : Except Unit DBUser) (req : Request)
    (hadm : env.supabaseAdminPresent = true) (hcfg : hasValidJWTConfig env = true) :
    (authMiddleware env cache net admin syncRes req).outcome =
      match (authTryBlock env cache net admin syncRes req).result with
      | .earlyRespond s e => .respond s e
      | .thrown th => catchResponse th
      | .success p => .proceed p := by
  unfold authMiddleware
  rw [hadm, hcfg]
  rcases ht : authTryBlock env cache net admin syncRes req with ⟨r, c2, evs⟩
  simp only [ht]
  cases r <;> simp

/-- C9: a token whose signature verified but that lacks the role claim
is rejected with the distinct missing-role reason, and one lacking the
subject claim with the distinct missing-subject reason; in either case
the middleware never attaches a principal. -/
theorem missing_claims_rejected (env : Env) (cache : CacheState) (net : NetResult)
    (admin : Except Unit SupaUser) (syncRes : Except Unit DBUser)
    (ah : String) (hdr : JWTHeader) (sig : SigInfo) (claims : JWTClaims)
    (c2 : CacheState) (evs : List Ev)
    (hb : strLeads ah "Bearer " = true)
    (hd : dispatchVerify env cache net hdr sig claims = ⟨c2, evs, .ok claims⟩) :
    (truthy claims.sub = true → truthy claims.role = false →
      (authTryBlock env cache net admin syncRes
          ⟨some ah, .wellFormed hdr claims sig⟩).result =
        .thrown (.generic "JWT missing role claim") ∧
      ∀ p, (authMiddleware env cache net admin syncRes
          ⟨some ah, .wellFormed hdr claims sig⟩).outcome ≠ .proceed p) ∧
    (truthy claims.sub = false →
      (authTryBlock env cache net admin syncRes
          ⟨some ah, .wellFormed hdr claims sig⟩).result =
        .thrown (.generic "JWT missing subject (user ID)") ∧
      ∀ p, (authMiddleware env cache net admin syncRes
          ⟨some ah, .wellFormed hdr claims sig⟩).outcome ≠ .proceed p) ∧
    ("JWT missing role claim" : String) ≠ "JWT missing subject (user ID)" := by
  refine ⟨?_, ?_, by decide⟩
  · intro hs hr
    have hres : (authTryBlock env cache net admin syncRes
        ⟨some ah, .wellFormed hdr claims sig⟩).result =
        .thrown (.generic "JWT missing role claim") := by
      rw [authTryBlock_dispatch_ok env cache net admin syncRes ah hdr claims sig claims
        c2 evs hb hd]
      simp [afterVerify, hs, hr]
    refine ⟨hres, ?_⟩
    intro p hp
    have hsucc := authMiddleware_proceed_inv _ _ _ _ _ _ _ hp
    rw [hres] at hsucc
    cases hsucc
  · intro hs
    have hres : (authTryBlock env cache net admin syncRes
        ⟨some ah, .wellFormed hdr claims sig⟩).result =
        .thrown (.generic "JWT missing subject (user ID)") := by
      rw [authTryBlock_dispatch_ok env cache net admin syncRes ah hdr claims sig claims
        c2 evs hb hd]
      simp [afterVerify, hs]
    refine ⟨hres, ?_⟩
    intro p hp
    have hsucc := authMiddleware_proceed_inv _ _ _ _ _ _ _ hp
    rw [hres] at hsucc
    cases hsucc

/-- Witness for C9: a concrete valid-signature token with no role claim
is rejected with the missing-role reason and no principal. -/
theorem missing_claims_rejected_witness :
    (authTryBlock wEnv wCache .fail (.ok wSupaUser) (.ok wDbUser)
        ⟨some "Bearer t", .wellFormed wHdr wClaimsNoRole wSig⟩).result =
      .thrown (.generic "JWT missing role claim") ∧
    ∀ p, (authMiddleware wEnv wCache .fail (.ok wSupaUser) (.ok wDbUser)
        ⟨some "Bearer t", .wellFormed wHdr wClaimsNoRole wSig⟩).outcome ≠ .proceed p :=
  (missing_claims_rejected wEnv wCache .fail (.ok wSupaUser) (.ok wDbUser) "Bearer t"
      wHdr wSig wClaimsNoRole wCache [.hsVerify] (by decide) rfl).1 (by decide) (by decide)

/-- C10: for a token that passed full verification and claim checks, an
error from the remote admin lookup by subject id makes the middleware
respond 401 and attach no principal — authentication of an
already-verified token additionally depends on that remote lookup. -/
theorem admin_lookup_failure_rejects (env : Env) (cache : CacheState) (net : NetResult)
    (syncRes : Except Unit DBUser)
    (ah : String) (hdr : JWTHeader) (sig : SigInfo) (claims : JWTClaims)
    (c2 : CacheState) (evs : List Ev)
    (hb : strLeads ah "Bearer " = true)
    (hd : dispatchVerify env cache net hdr sig claims = ⟨c2, evs, .ok claims⟩)
    (hs : truthy claims.sub = true) (hr : truthy claims.role = true)
    (hadm : env.supabaseAdminPresent = true) (hcfg : hasValidJWTConfig env = true) :
    (authMiddleware env cache net (.error ()) syncRes
        ⟨some ah, .wellFormed hdr claims sig⟩).outcome =
      .respond 401 "Authentication failed" ∧
    ∀ p, (authMiddleware env cache net (.error ()) syncRes
        ⟨some ah, .wellFormed hdr claims sig⟩).outcome ≠ .proceed p := by
  have hres : (authTryBlock env cache net (.error ()) syncRes
      ⟨some ah, .wellFormed hdr claims sig⟩).result =
      .earlyRespond 401 "Authentication failed" := by
    rw [authTryBlock_dispatch_ok env cache net (.error ()) syncRes ah hdr claims sig claims
      c2 evs hb hd]
    simp [afterVerify, hs, hr]
  have hout : (authMiddleware env cache net (.error ()) syncRes
      ⟨some ah, .wellFormed hdr claims sig⟩).outcome =
      .respond 401 "Authentication failed" := by
    rw [authMiddleware_of_config env cache net (.error ()) syncRes _ hadm hcfg, hres]
  refine ⟨hout, ?_⟩
  intro p hp
  rw [hout] at hp
  cases hp

/-- Witness for C10: the concrete valid request is rejected with 401
when the admin lookup errors. -/
theorem admin_lookup_failure_rejects_witness :
    (authMiddleware wEnv wCache .fail (.error ()) (.ok wDbUser)
        ⟨some "Bearer t", .wellFormed wHdr wClaims wSig⟩).outcome =
      .respond 401 "Authentication failed" ∧
    ∀ p, (authMiddleware wEnv wCache .fail (.error ()) (.ok wDbUser)
        ⟨some "Bearer t", .wellFormed wHdr wClaims wSig⟩).outcome ≠ .proceed p :=
  admin_lookup_failure_rejects wEnv wCache .fail (.ok wDbUser) "Bearer t"
    wHdr wSig wClaims wCache [.hsVerify] (by decide) rfl (by decide) (by decide)
    rfl (by decide)

/-- C8: when the token is fully verified, its claims pass, and the admin
lookup succeeds, a failure of the local user synchronization does not
fail the request: the middleware still calls the downstream handler
with a principal carrying the token's id, email, role and claims but no
database display name and no database user reference. -/
theorem sync_failure_still_authenticates (env : Env) (cache : CacheState) (net : NetResult)
    (u : SupaUser)
    (ah : String) (hdr : JWTHeader) (sig : SigInfo) (claims : JWTClaims)
    (c2 : CacheState) (evs : List Ev)
    (hb : strLeads ah "Bearer " = true)
    (hd : dispatchVerify env cache net hdr sig claims = ⟨c2, evs, .ok claims⟩)
    (hs : truthy claims.sub = true) (hr : truthy claims.role = true)
    (hadm : env.supabaseAdminPresent = true) (hcfg : hasValidJWTConfig env = true) :
    (authMiddleware env cache net (.ok u) (.error ())
        ⟨some ah, .wellFormed hdr claims sig⟩).outcome =
      .proceed ⟨claims.sub.getD "", claims.email, claims.role, none, none, claims⟩ := by
  have hres : (authTryBlock env cache net (.ok u) (.error ())
      ⟨some ah, .wellFormed hdr claims sig⟩).result =
      .success ⟨claims.sub.getD "", claims.email, claims.role, none, none, claims⟩ := by
    rw [authTryBlock_dispatch_ok env cache net (.ok u) (.error ()) ah hdr claims sig claims
      c2 evs hb hd]
    simp [afterVerify, hs, hr]
  rw [authMiddleware_of_config env cache net (.ok u) (.error ()) _ hadm hcfg, hres]

/-- Witness for C8: the concrete valid request proceeds with a
database-less principal when the sync step throws. -/
theorem sync_failure_still_authenticates_witness :
    (authMiddleware wEnv wCache .fail (.ok wSupaUser) (.error ())
        ⟨some "Bearer t", .wellFormed wHdr wClaims wSig⟩).outcome =
      .proceed ⟨wClaims.sub.getD "", wClaims.email, wClaims.role, none, none, wClaims⟩ :=
  sync_failure_still_authenticates wEnv wCache .fail wSupaUser "Bearer t"
    wHdr wSig wClaims wCache [.hsVerify] (by decide) rfl (by decide) (by decide)
    rfl (by decide)

/-- A truthy optional string is a present, non-empty string. -/
theorem truthy_some (a : Option String) (h : truthy a = true) :
    ∃ s, a = some s ∧ (s == "") = false := by
  cases a with
  | none => cases h
  | some s =>
    refine ⟨s, rfl, ?_⟩
    simpa [truthy] using h

/-- The row found by the id lookup has the looked-up id. -/
theorem find_id_eq (db : List DBUser) (uid : String) (u : DBUser)
    (h : db.find? (fun x => x.id == uid) = some u) : u.id = uid := by
  have hp := List.find?_some h
  simp only at hp
  exact eq_of_beq hp

/-- Replacing the found row in place preserves the lookup, which now
returns the replacement row. -/
theorem find_map_set (db : List DBUser) (uid : String) (u u2 : DBUser)
    (h : db.find? (fun x => x.id == uid) = some u) (hu2 : u2.id = uid) :
    (db.map (fun x => if x.id == uid then u2 else x)).find? (fun x => x.id == uid) =
      some u2 := by
  have hp2 : (u2.id == uid) = true := by rw [hu2]; exact beq_self_eq_true uid
  induction db with
  | nil => cases h
  | cons y ys ih =>
    cases hy : (y.id == uid) with
    | true =>
      simp only [List.map_cons, if_pos hy, List.find?, hp2]
    | false =>
      simp only [List.find?, hy] at h
      simp only [List.map_cons, hy, if_neg, List.find?]
      rw [if_neg (by simp [hy])]
      simp only [List.find?, hy]
      exact ih h

/-- Reduction of `ensureUserExists` on an existing row: the update-pass
branch of lines 31-48. -/
theorem ensureUserExists_found (db : List DBUser) (su : SupaUser) (u : DBUser)
    (hid : truthy su.id = true)
    (hfind : db.find? (fun x => x.id == su.id.getD "") = some u) :
    ensureUserExists db su =
      (let emailUpd : Option String :=
        if truthy su.email && !(u.email == su.email) then su.email else none
       let nameUpd : Option String :=
        if truthy su.metaName && !(u.name == su.metaName) then su.metaName else none
       if emailUpd == none && nameUpd == none then ⟨db, .ok u, []⟩
       else
         let u2 : DBUser :=
           ⟨u.id,
            match emailUpd with | some v => some v | none => u.email,
            match nameUpd with | some v => some v | none => u.name⟩
         ⟨db.map (fun x => if x.id == su.id.getD "" then u2 else x), .ok u2,
          [.update (su.id.getD "") emailUpd nameUpd]⟩) := by
  unfold ensureUserExists
  simp only [hid, Bool.not_true, Bool.false_eq_true, if_false, hfind]

/-- A second call whose inputs assert nothing beyond the stored row
writes nothing and leaves the table unchanged. -/
theorem ensure_second_noop (su : SupaUser) (v : DBUser) (db2 : List DBUser)
    (he : (truthy su.email && !(v.email == su.email)) = false)
    (hn : (truthy su.metaName && !(v.name == su.metaName)) = false)
    (hid : truthy su.id = true)
    (hfind : db2.find? (fun x => x.id == su.id.getD "") = some v) :
    (ensureUserExists db2 su).writes = [] ∧ (ensureUserExists db2 su).db = db2 := by
  rw [ensureUserExists_found db2 su v hid hfind]
  simp [he, hn]

/-- C7: `ensureUserExists` is idempotent on an existing row — an
immediate second call with identical inputs issues no write and leaves
the table unchanged — and a call with a changed (present) email and an
unchanged name issues exactly one update containing only the email
field, so the stored display name is untouched. -/
theorem ensure_user_idempotent_minimal_update (db : List DBUser) (su : SupaUser)
    (u : DBUser)
    (hid : truthy su.id = true)
    (hfind : db.find? (fun x => x.id == su.id.getD "") = some u) :
    ((ensureUserExists (ensureUserExists db su).db su).writes = [] ∧
     (ensureUserExists (ensureUserExists db su).db su).db = (ensureUserExists db su).db) ∧
    (truthy su.email = true → u.email ≠ su.email →
     (truthy su.metaName = false ∨ u.name = su.metaName) →
      (ensureUserExists db su).writes = [.update (su.id.getD "") su.email none] ∧
      ∃ u2, (ensureUserExists db su).result = .ok u2 ∧
        u2.email = su.email ∧ u2.name = u.name) := by
  have huid : u.id = su.id.getD "" := find_id_eq db _ u hfind
  have hred := ensureUserExists_found db su u hid hfind
  constructor
  · by_cases hec : (truthy su.email && !(u.email == su.email)) = true
    · by_cases hnc : (truthy su.metaName && !(u.name == su.metaName)) = true
      · rw [Bool.and_eq_true] at hec hnc
        obtain ⟨he1, he2⟩ := hec
        obtain ⟨hn1, hn2⟩ := hnc
        obtain ⟨es, hes, hesne⟩ := truthy_some su.email he1
        obtain ⟨ns, hns, hnsne⟩ := truthy_some su.metaName hn1
        have hte : truthy (some es) = true := by simp [truthy, hesne]
        have htn : truthy (some ns) = true := by simp [truthy, hnsne]
        have h1 : ensureUserExists db su =
            ⟨db.map (fun x => if x.id == su.id.getD "" then
                ⟨u.id, some es, some ns⟩ else x),
             .ok ⟨u.id, some es, some ns⟩,
             [.update (su.id.getD "") (some es) (some ns)]⟩ := by
          rw [hred, hes, hns]
          rw [hes] at he2
          rw [hns] at hn2
          simp [he2, hn2, hte, htn]
        rw [h1]
        refine ensure_second_noop su ⟨u.id, some es, some ns⟩ _ ?_ ?_ hid
          (find_map_set db _ u _ hfind huid)
        · rw [hes]; simp
        · rw [hns]; simp
      · have hncF : (truthy su.metaName && !(u.name == su.metaName)) = false := by
          revert hnc; cases truthy su.metaName && !(u.name == su.metaName) <;> simp
        rw [Bool.and_eq_true] at hec
        obtain ⟨he1, he2⟩ := hec
        obtain ⟨es, hes, hesne⟩ := truthy_some su.email he1
        have hte : truthy (some es) = true := by simp [truthy, hesne]
        have h1 : ensureUserExists db su =
            ⟨db.map (fun x => if x.id == su.id.getD "" then
                ⟨u.id, some es, u.name⟩ else x),
             .ok ⟨u.id, some es, u.name⟩,
             [.update (su.id.getD "") (some es) none]⟩ := by
          rw [hred, hes]
          rw [hes] at he2
          simp [he2, hncF, hte]
        rw [h1]
        refine ensure_second_noop su ⟨u.id, some es, u.name⟩ _ ?_ ?_ hid
          (find_map_set db _ u _ hfind huid)
        · rw [hes]; simp
        · exact hncF
    · have hecF : (truthy su.email && !(u.email == su.email)) = false := by
        revert hec; cases truthy su.email && !(u.email == su.email) <;> simp
      by_cases hnc : (truthy su.metaName && !(u.name == su.metaName)) = true
      · rw [Bool.and_eq_true] at hnc
        obtain ⟨hn1, hn2⟩ := hnc
        obtain ⟨ns, hns, hnsne⟩ := truthy_some su.metaName hn1
        have htn : truthy (some ns) = true := by simp [truthy, hnsne]
        have h1 : ensureUserExists db su =
            ⟨db.map (fun x => if x.id == su.id.getD "" then
                ⟨u.id, u.email, some ns⟩ else x),
             .ok ⟨u.id, u.email, some ns⟩,
             [.update (su.id.getD "") none (some ns)]⟩ := by
          rw [hred, hns]
          rw [hns] at hn2
          simp [hecF, hn2, htn]
        rw [h1]
        refine ensure_second_noop su ⟨u.id, u.email, some ns⟩ _ ?_ ?_ hid
          (find_map_set db _ u _ hfind huid)
        · exact hecF
        · rw [hns]; simp
      · have hncF : (truthy su.metaName && !(u.name == su.metaName)) = false := by
          revert hnc; cases truthy su.metaName && !(u.name == su.metaName) <;> simp
        have h1 : ensureUserExists db su = ⟨db, .ok u, []⟩ := by
          rw [hred]
          simp [hecF, hncF]
        rw [h1]
        exact ensure_second_noop su u db hecF hncF hid hfind
  · intro hem hne hname
    have he2 : (!(u.email == su.email)) = true := by
      rw [beq_eq_false_iff_ne.mpr hne]
      rfl
    have hncF : (truthy su.metaName && !(u.name == su.metaName)) = false := by
      rcases hname with hmn | hmn
      · rw [hmn]
        rfl
      · rw [hmn]
        simp
    obtain ⟨es, hes, hesne⟩ := truthy_some su.email hem
    have hte : truthy (some es) = true := by simp [truthy, hesne]
    have h1 : ensureUserExists db su =
        ⟨db.map (fun x => if x.id == su.id.getD "" then
            ⟨u.id, some es, u.name⟩ else x),
         .ok ⟨u.id, some es, u.name⟩,
         [.update (su.id.getD "") (some es) none]⟩ := by
      rw [hred, hes]
      rw [hes] at he2
      simp [he2, hncF, hte]
    rw [h1, hes]
    exact ⟨rfl, ⟨u.id, some es, u.name⟩, rfl, rfl, rfl⟩

/-- Witness for C7: on a concrete table, a call with a changed email and
an unchanged name writes only the email field, and an immediate second
identical call writes nothing. -/
theorem ensure_user_idempotent_minimal_update_witness :
    ((ensureUserExists (ensureUserExists wDb wSuNewEmail).db wSuNewEmail).writes = [] ∧
     (ensureUserExists (ensureUserExists wDb wSuNewEmail).db wSuNewEmail).db =
       (ensureUserExists wDb wSuNewEmail).db) ∧
    (truthy wSuNewEmail.email = true →
     (⟨"u1", some "old@b.com", some "Ann"⟩ : DBUser).email ≠ wSuNewEmail.email →
     (truthy wSuNewEmail.metaName = false ∨
       (⟨"u1", some "old@b.com", some "Ann"⟩ : DBUser).name = wSuNewEmail.metaName) →
      (ensureUserExists wDb wSuNewEmail).writes =
        [.update (wSuNewEmail.id.getD "") wSuNewEmail.email none] ∧
      ∃ u2, (ensureUserExists wDb wSuNewEmail).result = .ok u2 ∧
        u2.email = wSuNewEmail.email ∧
        u2.name = (⟨"u1", some "old@b.com", some "Ann"⟩ : DBUser).name) :=
  ensure_user_idempotent_minimal_update wDb wSuNewEmail
    ⟨"u1", some "old@b.com", some "Ann"⟩ (by decide) (by decide)

/-- Running a concatenated schedule runs the pieces in order. -/
theorem concRun_append (nowMs : Nat) (l1 l2 : List ConcAct) (s : ConcState) :
    concRun nowMs (l1 ++ l2) s = concRun nowMs l2 (concRun nowMs l1 s) := by
  induction l1 generalizing s with
  | nil => rfl
  | cons a as ih => simp [concRun, ih]

/-- Against a missing or expired cache, every ready caller that runs its
cache check starts its own fetch: `k` checks move `k` callers into the
fetching phase and issue `k` outbound fetches. -/
theorem concRun_checks (nowMs : Nat) (cache : CacheState)
    (hmiss : cache.jwksCache = none ∨ cache.jwksCacheExpiry ≤ nowMs) :
    ∀ (k : Nat) (s : ConcState), s.cache = cache → k ≤ s.nReady →
      concRun nowMs (List.replicate k .check) s =
        ⟨cache, s.nReady - k, s.nFetching + k, s.nDone, s.fetchCount + k⟩ := by
  intro k
  induction k with
  | zero =>
    intro s hsc hk
    rcases s with ⟨sc, r, f, d, cnt⟩
    simp only at hsc
    subst hsc
    simp [concRun]
  | succ k ih =>
    intro s hsc hk
    rw [List.replicate_succ]
    simp only [concRun]
    have hnz : ¬ (s.nReady = 0) := by omega
    have hstep : concStep nowMs .check s =
        ⟨cache, s.nReady - 1, s.nFetching + 1, s.nDone, s.fetchCount + 1⟩ := by
      show concCheck nowMs s = _
      unfold concCheck
      rw [if_neg hnz]
      rcases hmiss with h | h
      · rw [hsc, h]
      · rcases hc : cache.jwksCache with _ | c
        · rw [hsc, hc]
        · rw [hsc, hc]
          rw [if_neg (by omega)]
    rw [hstep]
    rw [ih ⟨cache, s.nReady - 1, s.nFetching + 1, s.nDone, s.fetchCount + 1⟩ rfl (by simp; omega)]
    have h2 : s.nReady - 1 - k = s.nReady - (k + 1) := by omega
    have h3 : s.nFetching + 1 + k = s.nFetching + (k + 1) := by omega
    have h4 : s.fetchCount + 1 + k = s.fetchCount + (k + 1) := by omega
    rw [h2, h3, h4]

/-- Each completion of an in-flight fetch finishes one caller and issues
no further fetch: after all `m` in-flight fetches resolve, no caller is
left fetching and the fetch count is unchanged. -/
theorem concRun_completes (nowMs : Nat) (jwks : JWKSet) :
    ∀ (m : Nat) (s : ConcState), s.nFetching = m →
      (concRun nowMs (List.replicate m (.complete (.ok jwks))) s).nReady = s.nReady ∧
      (concRun nowMs (List.replicate m (.complete (.ok jwks))) s).nFetching = 0 ∧
      (concRun nowMs (List.replicate m (.complete (.ok jwks))) s).fetchCount =
        s.fetchCount := by
  intro m
  induction m with
  | zero =>
    intro s hm
    simp [concRun, hm]
  | succ m ih =>
    intro s hm
    rw [List.replicate_succ]
    simp only [concRun]
    have hnz : ¬ (s.nFetching = 0) := by omega
    have hstep : concStep nowMs (.complete (.ok jwks)) s =
        ⟨⟨some jwks, nowMs + 10 * 60 * 1000⟩, s.nReady, s.nFetching - 1,
         s.nDone + 1, s.fetchCount⟩ := by
      show concComplete nowMs (.ok jwks) s = _
      unfold concComplete
      rw [if_neg hnz]
    rw [hstep]
    have hih := ih ⟨⟨some jwks, nowMs + 10 * 60 * 1000⟩, s.nReady, s.nFetching - 1,
      s.nDone + 1, s.fetchCount⟩ (by simp; omega)
    simpa using hih

/-- C2 counterexample: two concurrent resolutions against a missing
key-set cache, each running its cache check before either fetch has
resolved, complete with TWO outbound fetches — the code issues one
fetch per concurrent miss, not exactly one in total. -/
theorem single_flight_counterexample :
    allDone (concRun 1000 wSchedule (concInit wCache 2)) = true ∧
    (concRun 1000 wSchedule (concInit wCache 2)).fetchCount = 2 := by
  constructor <;> rfl

/-- C2 amended: `fetchSupabaseJWKS` has no single-flight protection. A
resolution that observes a populated, unexpired cache issues no fetch;
but against a missing or expired cache every concurrent caller that
runs its check before any fetch completes issues its own outbound
fetch — `n` concurrent misses produce `n` fetches, not one. -/
theorem no_single_flight (n : Nat) (jwks : JWKSet) (nowMs : Nat)
    (cache : CacheState) (s : ConcState) (c : JWKSet)
    (hmiss : cache.jwksCache = none ∨ cache.jwksCacheExpiry ≤ nowMs)
    (hvalid : s.cache.jwksCache = some c)
    (hfresh : s.cache.jwksCacheExpiry > nowMs) :
    (allDone (concRun nowMs
        (List.replicate n .check ++ List.replicate n (.complete (.ok jwks)))
        (concInit cache n)) = true ∧
     (concRun nowMs
        (List.replicate n .check ++ List.replicate n (.complete (.ok jwks)))
        (concInit cache n)).fetchCount = n) ∧
    (concCheck nowMs s).fetchCount = s.fetchCount := by
  constructor
  · rw [concRun_append]
    rw [concRun_checks nowMs cache hmiss n (concInit cache n) rfl (by simp [concInit])]
    have hrun := concRun_completes nowMs jwks n
      ⟨cache, (concInit cache n).nReady - n, (concInit cache n).nFetching + n,
       (concInit cache n).nDone, (concInit cache n).fetchCount + n⟩ (by simp [concInit])
    obtain ⟨hr, hf, hc⟩ := hrun
    constructor
    · simp only [allDone]
      rw [Bool.and_eq_true]
      constructor
      · rw [decide_eq_true_eq, hr]
        simp [concInit]
      · rw [decide_eq_true_eq, hf]
    · rw [hc]
      simp [concInit]
  · unfold concCheck
    by_cases hr : s.nReady = 0
    · rw [if_pos hr]
    · rw [if_neg hr]
      rw [hvalid, if_pos hfresh]

/-- Witness for C2 as amended: three concrete concurrent misses issue
three fetches, and a caller seeing a valid cache issues none. -/
theorem no_single_flight_witness :
    (allDone (concRun 1000
        (List.replicate 3 ConcAct.check ++
          List.replicate 3 (ConcAct.complete (.ok wJWKS)))
        (concInit wCache 3)) = true ∧
     (concRun 1000
        (List.replicate 3 ConcAct.check ++
          List.replicate 3 (ConcAct.complete (.ok wJWKS)))
        (concInit wCache 3)).fetchCount = 3) ∧
    (concCheck 1000 ⟨⟨some wJWKS, 2000⟩, 1, 0, 0, 0⟩).fetchCount =
      (⟨⟨some wJWKS, 2000⟩, 1, 0, 0, 0⟩ : ConcState).fetchCount :=
  no_single_flight 3 wJWKS 1000 wCache ⟨⟨some wJWKS, 2000⟩, 1, 0, 0, 0⟩ wJWKS
    (Or.inl rfl) rfl (by decide)

end Nudgr
